import Mathlib

/-!
Verification of the `tail-jsonl` streaming log-line processor.

This file shallowly embeds the core of the repository -- the field
extraction / record model (`src/tail_jsonl/_private/core.py`), the filter
pipeline (`src/tail_jsonl/_private/filters.py`), the context-line buffer
(`src/tail_jsonl/_private/context.py`), the statistics aggregator
(`src/tail_jsonl/_private/stats.py`) and the highlighter
(`src/tail_jsonl/_private/highlighter.py`) -- into Lean, and proves the
specified properties about the embedding.

Python mutation is rendered as explicit state passing: a function that
mutates a dict in place becomes a Lean function that also returns the
updated value.  External collaborators (the `json` decoder, compiled
`re` patterns and the `rich` rendering sink) are modelled extensionally,
as functions packaged in a `PyEnv` record, since the code under
verification only ever observes their output.
-/

namespace TailJsonl

/-- JSON values as produced by `json.loads`: strings, numbers, booleans,
`None`, arrays and objects.  Python dicts preserve insertion order, so an
object is an ordered association list (JSON objects parsed by `json.loads`
have unique keys).  Numbers are modelled as integers; float formatting
plays no role in any verified property. -/
inductive Json where
  | str : String → Json
  | num : Int → Json
  | bool : Bool → Json
  | null : Json
  | arr : List Json → Json
  | obj : List (String × Json) → Json

/-- First value bound to key `k`, as Python `dict.__getitem__` / `dict.get`. -/
def lookupKey (kvs : List (String × Json)) (k : String) : Option Json :=
  match kvs with
  | [] => none
  | (k', v) :: rest => if k' = k then some v else lookupKey rest k

/-- Remove every binding of key `k`, as Python `del d[k]` (keys are unique,
so at most one binding is ever removed in practice). -/
def eraseKey (kvs : List (String × Json)) (k : String) : List (String × Json) :=
  match kvs with
  | [] => []
  | (k', v) :: rest => if k' = k then eraseKey rest k else (k', v) :: eraseKey rest k

/-- Replace the value of the first binding of `k` by `f` of it; no-op when
`k` is absent. -/
def modifyKey (kvs : List (String × Json)) (k : String) (f : Json → Json) :
    List (String × Json) :=
  match kvs with
  | [] => []
  | (k', v) :: rest => if k' = k then (k', f v) :: rest else (k', v) :: modifyKey rest k f

/-- Python `d[k] = v`: replace the value of an existing binding in place,
else append a new binding at the end (insertion order). -/
def setKey (kvs : List (String × Json)) (k : String) (v : Json) :
    List (String × Json) :=
  match kvs with
  | [] => [(k, v)]
  | (k', v') :: rest => if k' = k then (k', v) :: rest else (k', v') :: setKey rest k v

/-- Python truthiness (`bool(x)`) of a decoded JSON value. -/
def jsonTruthy : Json → Bool
  | Json.str s => !(s == "")
  | Json.num n => !(n == 0)
  | Json.bool b => b
  | Json.null => false
  | Json.arr xs => !xs.isEmpty
  | Json.obj kvs => !kvs.isEmpty

/-- Lowercase hex digit. -/
def hexDigit (n : Nat) : Char :=
  if n < 10 then Char.ofNat (48 + n) else Char.ofNat (87 + n)

/-- Two lowercase hex digits of a byte, as in Python `\xNN` escapes. -/
def hexByte (n : Nat) : String :=
  String.mk [hexDigit (n / 16 % 16), hexDigit (n % 16)]

/-- One character of a Python string repr under quote character `q`:
backslash, the quote and common control characters are escaped, other
characters pass through. -/
def pyEscapeChar (q : Char) (c : Char) : String :=
  if c = '\\' then "\\\\"
  else if c = q then "\\" ++ String.mk [q]
  else if c = '\n' then "\\n"
  else if c = '\r' then "\\r"
  else if c = '\t' then "\\t"
  else if c.toNat < 32 || c.toNat == 127 then "\\x" ++ hexByte c.toNat
  else String.mk [c]

/-- Python `repr` of a string: single-quoted, unless the string contains a
single quote and no double quote. -/
def pyReprStr (s : String) : String :=
  let q : Char := if s.toList.contains '\'' && !(s.toList.contains '"') then '"' else '\''
  String.mk [q] ++ String.join (s.toList.map (pyEscapeChar q)) ++ String.mk [q]

mutual

/-- Python `repr` of a decoded JSON value (`str` and `repr` agree on
everything except top-level strings). -/
def pyRepr : Json → String
  | Json.str s => pyReprStr s
  | Json.num n => toString n
  | Json.bool true => "True"
  | Json.bool false => "False"
  | Json.null => "None"
  | Json.arr xs => "[" ++ String.intercalate ", " (pyReprList xs) ++ "]"
  | Json.obj kvs => "\x7b" ++ String.intercalate ", " (pyReprObj kvs) ++ "\x7d"

/-- `repr` of each element of a list. -/
def pyReprList : List Json → List String
  | [] => []
  | x :: xs => pyRepr x :: pyReprList xs

/-- `repr` of each `key: value` entry of a dict. -/
def pyReprObj : List (String × Json) → List String
  | [] => []
  | (k, v) :: kvs => (pyReprStr k ++ ": " ++ pyRepr v) :: pyReprObj kvs

end

/-- Python `str` of a decoded JSON value: a string passes through unquoted,
every other value displays as its repr. -/
def pyStr : Json → String
  | Json.str s => s
  | v => pyRepr v

/-- Split on the `.` delimiter, as Python `key.split('.')` (so the empty
string yields `[""]`, and a key without dots is a single segment). -/
def splitDotChars : List Char → List (List Char)
  | [] => [[]]
  | c :: rest =>
    if c = '.' then [] :: splitDotChars rest
    else
      match splitDotChars rest with
      | [] => [[c]]
      | seg :: segs => (c :: seg) :: segs

/-- The dot-separated segments of a key. -/
def splitDot (key : String) : List String :=
  (splitDotChars key.toList).map String.mk

/-- Nested lookup along a path of segments, as the external dotted-path
library's `dotted.get`: descend through object fields segment by segment;
an absent key or a non-object intermediate yields `none`.  (The library's
extra syntax -- numeric list indexing and wildcard patterns -- is never
used by this repository's keys and is not modelled.) -/
def getPath : Json → List String → Option Json
  | v, [] => some v
  | Json.obj kvs, k :: rest =>
    match lookupKey kvs k with
    | some v => getPath v rest
    | none => none
  | _, _ :: _ => none

/-- Nested removal along a path of segments, as `dotted.remove`: delete
exactly the leaf key from its immediate parent object, leaving the parent
(and everything else) in place; a no-op where the path does not resolve. -/
def removePath : Json → List String → Json
  | v, [] => v
  | Json.obj kvs, [k] => Json.obj (eraseKey kvs k)
  | Json.obj kvs, k :: r :: rest => Json.obj (modifyKey kvs k (fun v => removePath v (r :: rest)))
  | v, _ :: _ => v

/-- `dotted.get(data, key)`. -/
def dotted_get (data : Json) (key : String) : Option Json :=
  getPath data (splitDot key)

/-- `dotted.remove(data, key)`. -/
def dotted_remove (data : Json) (key : String) : Json :=
  removePath data (splitDot key)

/-- `_dot_pop` in `_private/core.py`: look the key up; a string value is
removed from the mapping and returned (`value or None` turns the empty
string into `None` -- after the removal); a list value is removed and
returned as `str(value)`; any other value is left in place and yields
`None`.  The Python function mutates `data`; here the updated mapping is
returned alongside the result. -/
def dot_pop (data : Json) (key : String) : Option String × Json :=
  match dotted_get data key with
  | some (Json.str v) => (if v = "" then none else some v, dotted_remove data key)
  | some (Json.arr xs) => (some (pyStr (Json.arr xs)), dotted_remove data key)
  | _ => (none, data)

/-- `_pop_key` in `_private/core.py`: walk the candidate keys left to right
and return the first `_dot_pop` result that is not `None`, else the
fallback.  The source recurses on an integer index into the full key list;
recursing on the remaining suffix of candidates is the same traversal. -/
def pop_key_go (data : Json) (keys : List String) (fallback : String) : String × Json
  :=
  match keys with
  | [] => (fallback, data)
  | key :: rest =>
    match dot_pop data key with
    | (some v, data') => (v, data')
    | (none, data') => pop_key_go data' rest fallback

/-- `pop_key` in `_private/core.py`. -/
def pop_key (data : Json) (keys : List String) (fallback : String) : String × Json :=
  pop_key_go data keys fallback

/-- `Keys` in `config.py`: fallback candidate lists for the canonical
fields, and the keys promoted to their own output line.  Defaults as in the
source. -/
structure Keys where
  timestamp : List String := ["timestamp", "time", "record.time.repr"]
  level : List String := ["level", "levelname", "record.level.name"]
  message : List String := ["event", "message", "msg", "record.message"]
  on_own_line : List String := ["text", "exception", "error.stack"]

/-- `Keys.get_dotted_keys`: the cached sublist of `on_own_line` keys that
contain a dot (the cache is computed once in `__post_init__`; its value is
exactly this filter). -/
def Keys.get_dotted_keys (keys : Keys) : List String :=
  keys.on_own_line.filter (fun key => key.toList.contains '.')

/-- A compiled `re.Pattern`, modelled extensionally by its `search`
predicate: `search text = true` iff the pattern matches somewhere in the
text.  The repository compiles patterns once at configuration time and
only ever calls `search`. -/
structure RePattern where
  search : String → Bool

/-- A compiled highlight pattern, modelled extensionally by `finditer`:
the list of `(start, end)` spans of its non-overlapping matches, in
leftmost order. -/
structure HighlightPattern where
  finditer : String → List (Nat × Nat)

/-- `Config` in `config.py`.  `field_selectors` is `None` or a list in the
source, with `None` and `[]` treated identically (both falsy), so a plain
list suffices.  `_include_re` / `_exclude_re` hold the patterns compiled in
`__post_init__` (present exactly when the corresponding source pattern is
a non-empty string); the case-insensitivity flag is folded into the
compiled pattern's `search` function. -/
structure Config where
  keys : Keys := {}
  debug : Bool := false
  field_selectors : List (String × String) := []
  include_re : Option RePattern := none
  exclude_re : Option RePattern := none
  /-- Modelled from the spec: compiled highlight patterns.  The highlight
  fields of `Config` are referenced by `_private/highlighter.py`, by
  `scripts.py` and by the tests, but their declaration and compilation are
  missing from `src/tail_jsonl/config.py`; per the spec, `HighlightConfig`
  is an ordered list of regex patterns compiled at configuration time. -/
  highlight_res : List HighlightPattern := []

/-- `Record` in `_private/core.py`. -/
structure Record where
  timestamp : String
  level : String
  message : String
  data : Json

/-- `Record.from_line`: resolve the three canonical fields through their
fallback chains (each pop mutating the mapping the next one sees -- Python
evaluates the constructor arguments left to right) and keep the remainder
as `data`. -/
def Record.from_line (data : Json) (config : Config) : Record :=
  let ts := pop_key data config.keys.timestamp "<no timestamp>"
  let lvl := pop_key ts.2 config.keys.level ""
  let msg := pop_key lvl.2 config.keys.message "<no message>"
  { timestamp := ts.1, level := lvl.1, message := msg.1, data := msg.2 }

/-- Scan a bracket expression's body for its closing bracket: called just
after `[` (and after a leading `!`), with `first = true` so that a `]` in
first position is taken as a literal member, as CPython's
`fnmatch.translate` does.  Yields the class body and the rest of the
pattern, or `none` when the bracket is unterminated. -/
def splitClass (first : Bool) : List Char → Option (List Char × List Char)
  | [] => none
  | c :: rest =>
    if c = ']' && !first then some ([], rest)
    else
      match splitClass false rest with
      | some (body, rem) => some (c :: body, rem)
      | none => none

/-- Parse a bracket expression after its `[`: an optional leading `!`
negates the class.  Returns `(negated, body, rest-of-pattern)`. -/
def parseClass (ps : List Char) : Option (Bool × List Char × List Char) :=
  match ps with
  | '!' :: rest =>
    match splitClass true rest with
    | some (body, rem) => some (true, body, rem)
    | none => none
  | _ =>
    match splitClass true ps with
    | some (body, rem) => some (false, body, rem)
    | none => none

/-- Whether character `c` is a member of a bracket-class body: `a-b` spans
a range (an inverted range matches nothing, as in CPython where empty
ranges are dropped); other characters, including a leading or trailing
`-`, match literally. -/
def classMatch : List Char → Char → Bool
  | [], _ => false
  | a :: '-' :: b :: rest, c => (a ≤ c && c ≤ b) || classMatch rest c
  | a :: rest, c => a == c || classMatch rest c

/-- Glob matching of a whole name against a pattern, as CPython's
`fnmatch.fnmatchcase` (which `fnmatch` equals on POSIX, where
`os.path.normcase` is the identity): `*` matches any sequence, `?` any
single character, `[...]`/`[!...]` a character class, an unterminated `[`
itself, and every other character itself.  The pattern must cover the
entire name. -/
def globMatch (pat : List Char) (name : List Char) : Bool :=
  match pat, name with
  | [], [] => true
  | [], _ :: _ => false
  | '*' :: ps, [] => globMatch ps []
  | '*' :: ps, c :: cs => globMatch ps (c :: cs) || globMatch ('*' :: ps) cs
  | '?' :: _, [] => false
  | '?' :: ps, _ :: cs => globMatch ps cs
  | '[' :: ps, cs =>
    match parseClass ps with
    | some (neg, body, rest) =>
      match cs with
      | [] => false
      | c :: cs' => (classMatch body c != neg) && globMatch rest cs'
    | none =>
      match cs with
      | [] => false
      | c :: cs' => ('[' == c) && globMatch ps cs'
  | _ :: _, [] => false
  | p :: ps, c :: cs => (p == c) && globMatch ps cs
termination_by (name.length, pat.length)
decreasing_by all_goals (simp_wf; omega)

/-- `fnmatch.fnmatch(name, pat)`. -/
def fnmatch (name : String) (pat : String) : Bool :=
  globMatch pat.toList name.toList

/-- Python `str.lower` on an ASCII character (the repository's filter keys
and levels are ASCII; full Unicode case folding is not modelled). -/
def pyLowerChar (c : Char) : Char :=
  if 'A' ≤ c && c ≤ 'Z' then Char.ofNat (c.toNat + 32) else c

/-- Python `str.lower`. -/
def pyLower (s : String) : String :=
  String.mk (s.toList.map pyLowerChar)

/-- `_get_field_value` in `_private/filters.py`: the three canonical field
names read the extracted fields; any other key is looked up in
`record.data`, with dotted-path traversal when it contains a dot; a found
value is stringified.  A stored JSON `null` is Python `None`, which the
source's `str(value) if value is not None else None` cannot tell apart
from an absent key, so it reads as unresolved. -/
def _get_field_value (record : Record) (key : String) : Option String :=
  if key = "timestamp" then some record.timestamp
  else if key = "level" then some record.level
  else if key = "message" then some record.message
  else
    let value : Option Json :=
      if key.toList.contains '.' then dotted_get record.data key
      else
        match record.data with
        | Json.obj kvs => lookupKey kvs key
        | _ => none
    match value with
    | some Json.null => none
    | some v => some (pyStr v)
    | none => none

/-- The field-selector loop of `should_include_record`: each `(key,
pattern)` pair must resolve and glob-match case-insensitively; an
unresolved key or a non-match rejects at once. -/
def check_field_selectors (selectors : List (String × String)) (record : Record) : Bool :=
  match selectors with
  | [] => true
  | (key, pattern) :: rest =>
    match _get_field_value record key with
    | none => false
    | some value => fnmatch (pyLower value) (pyLower pattern) && check_field_selectors rest record

/-- `should_include_record` in `_private/filters.py`: field selectors, then
the include pattern, then the exclude pattern, with AND semantics and
short-circuit on the first failure. -/
def should_include_record (record : Record) (formatted_output : String) (config : Config) :
    Bool :=
  check_field_selectors config.field_selectors record &&
    (match config.include_re with
     | some p => p.search formatted_output
     | none => true) &&
    (match config.exclude_re with
     | some p => !p.search formatted_output
     | none => true)

/-- `ContextBuffer` in `_private/context.py`: the sizes from construction
plus the mutable state (the `before` FIFO and the countdown of "after"
lines still owed).  `ContextBuffer.__init__(before, after)` gives
`⟨before, after, [], 0⟩`. -/
structure ContextBuffer where
  before_count : Nat
  after_count : Nat
  before_buffer : List String
  after_counter : Nat

/-- A `deque(maxlen = m)` append: push on the right, dropping from the left
whatever exceeds the capacity. -/
def dequeAppend (buf : List String) (m : Nat) (line : String) : List String :=
  let buf' := buf ++ [line]
  if buf'.length > m then buf'.drop (buf'.length - m) else buf'

/-- `ContextBuffer.process_line`: on a match, flush the before-queue
(oldest first), clear it, reset the after-counter and print; on a non-match
inside the after window, decrement and print; otherwise buffer the line
(when `before_count > 0`) and do not print.  The Python method mutates
`self`; here the updated buffer is returned alongside the
`(lines_to_print, should_print_current)` result. -/
def ContextBuffer.process_line (cb : ContextBuffer) (line : String) (is_match : Bool) :
    (List String × Bool) × ContextBuffer :=
  if is_match then
    ((cb.before_buffer, true),
      { cb with before_buffer := [], after_counter := cb.after_count })
  else if cb.after_counter > 0 then
    (([], true), { cb with after_counter := cb.after_counter - 1 })
  else if cb.before_count > 0 then
    (([], false),
      { cb with before_buffer := dequeAppend cb.before_buffer cb.before_count line })
  else
    (([], false), cb)

/-- A `collections.Counter` over strings: an ordered association list from
key to count (first-seen order, as Python dicts). -/
def counterAdd (c : List (String × Nat)) (k : String) : List (String × Nat) :=
  match c with
  | [] => [(k, 1)]
  | (k', n) :: rest => if k' = k then (k', n + 1) :: rest else (k', n) :: counterAdd rest k

/-- The top-level keys of a record's remaining data (`record.data.keys()`). -/
def dataKeys : Json → List String
  | Json.obj kvs => kvs.map (fun kv => kv.1)
  | _ => []

/-- `Statistics` in `_private/stats.py`.  The `start_time` wall-clock field
and the elapsed/throughput projections derived from it are real-time
observations outside the embedding; every counter is modelled. -/
structure Statistics where
  total_lines : Nat := 0
  parsed_lines : Nat := 0
  parse_errors : Nat := 0
  filtered_lines : Nat := 0
  level_counts : List (String × Nat) := []
  key_counts : List (String × Nat) := []

/-- `Statistics.record_line`: always bump `total_lines`; a `None` record is
a parse error; a filtered record bumps `filtered_lines` and
`parsed_lines`; otherwise bump `parsed_lines` and the per-level (when the
level is non-empty) and per-key frequency tables. -/
def Statistics.record_line (stats : Statistics) (record : Option Record)
    (filtered : Bool) : Statistics :=
  let stats := { stats with total_lines := stats.total_lines + 1 }
  match record with
  | none => { stats with parse_errors := stats.parse_errors + 1 }
  | some record =>
    if filtered then
      { stats with
        filtered_lines := stats.filtered_lines + 1
        parsed_lines := stats.parsed_lines + 1 }
    else
      let stats := { stats with parsed_lines := stats.parsed_lines + 1 }
      let stats :=
        if record.level ≠ "" then
          { stats with level_counts := counterAdd stats.level_counts record.level }
        else stats
      { stats with key_counts := (dataKeys record.data).foldl counterAdd stats.key_counts }

/-- `HIGHLIGHT_COLORS` in `_private/highlighter.py`. -/
def HIGHLIGHT_COLORS : List String :=
  ["yellow", "cyan", "magenta", "green", "blue", "red"]

/-- A styled span as produced by `rich_text.stylize(Style(bgcolor=color,
color='black', bold=True), start, end)`: the background color names the
style, the offsets delimit the matched region. -/
structure Span where
  bgcolor : String
  start : Nat
  stop : Nat

/-- A `rich.text.Text` seeded from plain text with style-overlay spans in
application order (later spans win on overlap, which is how Rich resolves
colliding styles). -/
structure RichText where
  text : String
  spans : List Span

/-- The return type of `apply_highlighting`: a plain string when nothing is
highlighted, or a styled `Text` object. -/
inductive StyledText where
  | plain : String → StyledText
  | rich : RichText → StyledText

/-- The spans contributed by one pattern: each `finditer` match of the
pattern over the text, styled with the pattern's palette color. -/
def patternSpans (text : String) (i : Nat) (p : HighlightPattern) : List Span :=
  (p.finditer text).map (fun s =>
    { bgcolor := HIGHLIGHT_COLORS.getD (i % HIGHLIGHT_COLORS.length) ""
      start := s.1
      stop := s.2 })

/-- `apply_highlighting` in `_private/highlighter.py`: with no configured
patterns, return the input unchanged as a plain string; otherwise seed a
`Text` from the plain text and stylize every match of every pattern in
configured order, cycling through the palette. -/
def apply_highlighting (text : String) (config : Config) : StyledText :=
  if config.highlight_res.isEmpty then StyledText.plain text
  else
    StyledText.rich
      { text := text
        spans := (config.highlight_res.enum.map
          (fun ip => patternSpans text ip.1 ip.2)).flatten }

/-- One `console.print` observed at the output sink.  Debug diagnostics
(printed only under `config.debug`, with content interpolated from Python
exception objects) are modelled as an opaque event. -/
inductive ConsoleOutput where
  | print : String → Bool → Bool → ConsoleOutput
  | debugPrint : ConsoleOutput

/-- The external collaborators of `print_record` / `check_if_match`,
modelled extensionally: `json_loads` is `json.loads` (`none` models a
raised `JSONDecodeError`), `rich_printer` is the captured text a
`corallium` `rich_printer` call produces for a record at a resolved level
integer, and `get_level` is `corallium.loggers.styles.get_level`
(`logging.NOTSET = 0`). -/
structure PyEnv where
  json_loads : String → Option Json
  rich_printer : Record → Nat → String
  get_level : String → Nat

/-- Python whitespace, as stripped by `str.strip` / `str.rstrip`. -/
def pyIsSpace (c : Char) : Bool :=
  c == ' ' || c == '\t' || c == '\n' || c == '\r' || c == '\x0b' || c == '\x0c'

/-- Python `str.rstrip()`. -/
def pyRstrip (s : String) : String :=
  String.mk (s.toList.reverse.dropWhile pyIsSpace).reverse

/-- Python `str.strip()`. -/
def pyStrip (s : String) : String :=
  String.mk ((s.toList.dropWhile pyIsSpace).reverse.dropWhile pyIsSpace).reverse

/-- Python `str.rstrip('\n')`, applied to the captured output before the
final print. -/
def rstripNewlines (s : String) : String :=
  String.mk (s.toList.reverse.dropWhile (fun c => c == '\n')).reverse

/-- The dotted-key promotion loop shared by `print_record` and
`check_if_match`: for each cached dotted `on_own_line` key whose nested
value is truthy, assign the stringified value to the literal dotted key at
the top level (`record.data[dotted_key] = ...`) and then remove the nested
leaf (`dotted.remove`).  Returns the updated mapping and how many keys
were promoted (one debug line is printed per promotion). -/
def promote_dotted (data : Json) (dotted_keys : List String) : Json × Nat :=
  match dotted_keys with
  | [] => (data, 0)
  | key :: rest =>
    match dotted_get data key with
    | some value =>
      if jsonTruthy value then
        let data' := dotted_remove (match data with
          | Json.obj kvs => Json.obj (setKey kvs key (Json.str (pyStr value)))
          | other => other) key
        let r := promote_dotted data' rest
        (r.1, r.2 + 1)
      else promote_dotted data rest
    | none => promote_dotted data rest

/-- The shared body of `print_record` and `check_if_match` after a
successful decode: build the record, stash an unrecognized level under
`_level_name`, promote the dotted own-line keys, and capture the formatted
output.  Returns the final record, the capture, and the promotion count. -/
def prepare_record (env : PyEnv) (data : Json) (config : Config) :
    Record × String × Nat :=
  let record := Record.from_line data config
  let this_level := env.get_level record.level
  let record :=
    if this_level = 0 ∧ record.level ≠ "" then
      { record with
        data := match record.data with
          | Json.obj kvs => Json.obj (setKey kvs "_level_name" (Json.str record.level))
          | other => other }
    else record
  let pd := promote_dotted record.data config.keys.get_dotted_keys
  let record := { record with data := pd.1 }
  (record, env.rich_printer record this_level, pd.2)

/-- `check_if_match` in `_private/core.py`: with no filters configured,
everything matches before any parsing; a line that fails to decode does
not match; otherwise the record is prepared, formatted, and judged by
`should_include_record` on the stripped capture. -/
def check_if_match (env : PyEnv) (line : String) (config : Config) : Bool :=
  if !(config.include_re.isSome || config.exclude_re.isSome ||
        !config.field_selectors.isEmpty) then
    true
  else
    match env.json_loads line with
    | none => false
    | some data =>
      let prep := prepare_record env data config
      should_include_record prep.1 (pyStrip prep.2.1) config

/-- `print_record` in `_private/core.py`: a line that fails to decode is
printed verbatim (rstripped, `markup=False, highlight=False`) and counts
as printed; a decoded record is prepared, filtered (unless `skip_filter`),
and on success its capture is printed with trailing newlines removed.
Returns the emitted console events and the printed/suppressed flag. -/
def print_record (env : PyEnv) (line : String) (config : Config)
    (skip_filter : Bool) : List ConsoleOutput × Bool :=
  match env.json_loads line with
  | none =>
    ((if config.debug then [ConsoleOutput.debugPrint] else []) ++
      [ConsoleOutput.print (pyRstrip line) false false], true)
  | some data =>
    let prep := prepare_record env data config
    let dbg : List ConsoleOutput :=
      if config.debug then
        ConsoleOutput.debugPrint :: List.replicate prep.2.2 ConsoleOutput.debugPrint
      else []
    if !skip_filter && !should_include_record prep.1 (pyStrip prep.2.1) config then
      (dbg, false)
    else
      (dbg ++ [ConsoleOutput.print (rstripNewlines prep.2.1) false false], true)

/-- Whether a value is a JSON string. -/
def Json.isStr : Json → Bool
  | Json.str _ => true
  | _ => false

/-- Whether a value is a JSON array. -/
def Json.isArr : Json → Bool
  | Json.arr _ => true
  | _ => false

/-- Whether `_dot_pop data key` removes the key from the mapping: exactly
when the key resolves to a string (even the empty one) or to a list. -/
def dot_pop_removes (data : Json) (key : String) : Bool :=
  match dotted_get data key with
  | some (Json.str _) => true
  | some (Json.arr _) => true
  | _ => false

/-- The candidate keys whose leaf `_dot_pop` removes during a `pop_key`
walk, in traversal order: an empty-string value is removed and the walk
continues on the pruned mapping; a non-empty string or a list value is
removed and ends the walk; any other candidate is skipped, untouched. -/
def consumed_keys (data : Json) (keys : List String) : List String :=
  match keys with
  | [] => []
  | key :: rest =>
    match dotted_get data key with
    | some (Json.str v) =>
      if v = "" then key :: consumed_keys (dotted_remove data key) rest
      else [key]
    | some (Json.arr _) => [key]
    | _ => consumed_keys data rest

/-- The conservation invariants of `Statistics`: every line is either
parsed or a parse error, and filtered lines are a subset of parsed ones. -/
def statsInv (s : Statistics) : Prop :=
  s.total_lines = s.parsed_lines + s.parse_errors ∧ s.filtered_lines ≤ s.parsed_lines

/-- Run `record_line` over a whole sequence of calls, starting from a
fresh `Statistics()`. -/
def runStats (calls : List (Option Record × Bool)) : Statistics :=
  calls.foldl (fun acc c => acc.record_line c.1 c.2) {}

/-- A decoder environment whose `json.loads` always fails, for exercising
the decode-error paths on concrete inputs. -/
def envNone : PyEnv :=
  { json_loads := fun _ => none, rich_printer := fun _ _ => "", get_level := fun _ => 0 }

/-- A compiled pattern that matches every text. -/
def alwaysPattern : RePattern :=
  { search := fun _ => true }

/-! ## Theorems -/

theorem record_line_none_eq (s : Statistics) (f : Bool) :
    Statistics.record_line s none f =
      { s with total_lines := s.total_lines + 1,
               parse_errors := s.parse_errors + 1 } := rfl

theorem record_line_some_filtered_eq (s : Statistics) (r : Record) :
    Statistics.record_line s (some r) true =
      { s with total_lines := s.total_lines + 1,
               parsed_lines := s.parsed_lines + 1,
               filtered_lines := s.filtered_lines + 1 } := rfl

theorem record_line_some_kept_eq (s : Statistics) (r : Record) :
    Statistics.record_line s (some r) false =
      { s with total_lines := s.total_lines + 1,
               parsed_lines := s.parsed_lines + 1,
               level_counts :=
                 if r.level ≠ "" then counterAdd s.level_counts r.level
                 else s.level_counts,
               key_counts := (dataKeys r.data).foldl counterAdd s.key_counts } := by
  by_cases hl : r.level = "" <;> simp [Statistics.record_line, hl]

theorem record_line_statsInv {s : Statistics} (h : statsInv s) (r : Option Record)
    (f : Bool) : statsInv (s.record_line r f) := by
  obtain ⟨h1, h2⟩ := h
  cases r with
  | none =>
    rw [record_line_none_eq]
    refine ⟨?_, ?_⟩
    · show s.total_lines + 1 = s.parsed_lines + (s.parse_errors + 1)
      omega
    · show s.filtered_lines ≤ s.parsed_lines
      exact h2
  | some rec =>
    cases f with
    | true =>
      rw [record_line_some_filtered_eq]
      refine ⟨?_, ?_⟩
      · show s.total_lines + 1 = s.parsed_lines + 1 + s.parse_errors
        omega
      · show s.filtered_lines + 1 ≤ s.parsed_lines + 1
        omega
    | false =>
      rw [record_line_some_kept_eq]
      refine ⟨?_, ?_⟩
      · show s.total_lines + 1 = s.parsed_lines + 1 + s.parse_errors
        omega
      · show s.filtered_lines ≤ s.parsed_lines + 1
        omega

theorem foldl_statsInv (calls : List (Option Record × Bool)) :
    ∀ s : Statistics, statsInv s →
      statsInv (calls.foldl (fun acc c => acc.record_line c.1 c.2) s) := by
  induction calls with
  | nil => intro s h; exact h
  | cons c rest ih => intro s h; exact ih _ (record_line_statsInv h c.1 c.2)

/-- C8: For every fresh Statistics instance and every sequence of
record_line calls, the invariants `total_lines = parsed_lines +
parse_errors` and `parsed_lines ≥ filtered_lines` hold after every call;
each call increments `total_lines` and exactly one of: `parse_errors`
(when the record is `None`), or `filtered_lines` together with
`parsed_lines` (when filtered), or `parsed_lines` alone plus the per-level
and per-key frequency tables. -/
theorem C8_statistics_conservation :
    (∀ (s : Statistics) (filtered : Bool),
      Statistics.record_line s none filtered =
        { s with total_lines := s.total_lines + 1,
                 parse_errors := s.parse_errors + 1 }) ∧
    (∀ (s : Statistics) (r : Record),
      Statistics.record_line s (some r) true =
        { s with total_lines := s.total_lines + 1,
                 parsed_lines := s.parsed_lines + 1,
                 filtered_lines := s.filtered_lines + 1 }) ∧
    (∀ (s : Statistics) (r : Record),
      Statistics.record_line s (some r) false =
        { s with total_lines := s.total_lines + 1,
                 parsed_lines := s.parsed_lines + 1,
                 level_counts :=
                   if r.level ≠ "" then counterAdd s.level_counts r.level
                   else s.level_counts,
                 key_counts := (dataKeys r.data).foldl counterAdd s.key_counts }) ∧
    (∀ calls : List (Option Record × Bool), statsInv (runStats calls)) := by
  refine ⟨record_line_none_eq, record_line_some_filtered_eq, record_line_some_kept_eq,
    fun calls => foldl_statsInv calls {} ⟨rfl, Nat.le_refl 0⟩⟩

/-- C3: each `process_line` step behaves as the claim's three-way case
split: a match flushes the before-queue oldest-first, clears it, resets
the after-counter and prints; a non-match inside the after window
decrements and prints with no before-lines; any other non-match buffers
the line only when `before_size > 0` (bounded FIFO: capacity
`before_size`, oldest dropped on overflow) and does not print. -/
theorem C3_context_buffer_step (cb : ContextBuffer) (line : String) :
    (cb.process_line line true =
      ((cb.before_buffer, true),
        { cb with before_buffer := [], after_counter := cb.after_count })) ∧
    (0 < cb.after_counter →
      cb.process_line line false =
        (([], true), { cb with after_counter := cb.after_counter - 1 })) ∧
    (cb.after_counter = 0 → 0 < cb.before_count →
      cb.process_line line false =
        (([], false),
          { cb with
              before_buffer := dequeAppend cb.before_buffer cb.before_count line })) ∧
    (cb.after_counter = 0 → cb.before_count = 0 →
      cb.process_line line false = (([], false), cb)) ∧
    (cb.before_buffer.length < cb.before_count →
      dequeAppend cb.before_buffer cb.before_count line = cb.before_buffer ++ [line]) ∧
    (cb.before_buffer.length = cb.before_count → 0 < cb.before_count →
      dequeAppend cb.before_buffer cb.before_count line =
        cb.before_buffer.tail ++ [line]) ∧
    (cb.before_buffer.length ≤ cb.before_count →
      (dequeAppend cb.before_buffer cb.before_count line).length ≤ cb.before_count) := by
  refine ⟨rfl, ?_, ?_, ?_, ?_, ?_, ?_⟩
  · intro h
    simp [ContextBuffer.process_line, h]
  · intro h hb
    simp [ContextBuffer.process_line, h, hb]
  · intro h hb
    simp [ContextBuffer.process_line, h, hb]
  · intro h
    simp only [dequeAppend, List.length_append, List.length_cons, List.length_nil]
    rw [if_neg (by omega)]
  · intro h hb
    simp only [dequeAppend, List.length_append, List.length_cons, List.length_nil]
    rw [if_pos (by omega)]
    have h1 : cb.before_buffer.length + 1 - cb.before_count = 1 := by omega
    rw [h1, List.drop_append_of_le_length (by omega), List.drop_one]
  · intro h
    simp only [dequeAppend, List.length_append, List.length_cons, List.length_nil]
    by_cases hgt : cb.before_buffer.length + 1 > cb.before_count
    · rw [if_pos hgt]
      simp only [List.length_drop, List.length_append, List.length_cons,
        List.length_nil]
      omega
    · rw [if_neg hgt]
      simp only [List.length_append, List.length_cons, List.length_nil]
      omega

theorem C3_witness :
    (ContextBuffer.process_line ⟨2, 1, ["l1", "l2"], 0⟩ "l3" true =
      ((["l1", "l2"], true), ⟨2, 1, [], 1⟩)) ∧
    (ContextBuffer.process_line ⟨2, 1, ["l1", "l2"], 0⟩ "l3" false =
      (([], false), ⟨2, 1, ["l2", "l3"], 0⟩)) := by
  constructor
  · exact (C3_context_buffer_step ⟨2, 1, ["l1", "l2"], 0⟩ "l3").1
  · have h := (C3_context_buffer_step ⟨2, 1, ["l1", "l2"], 0⟩ "l3").2.2.1 rfl
      (by decide)
    simpa using h

/-- C7: with no highlight patterns configured, `apply_highlighting` is the
identity on plain text -- it returns the input string itself, not a styled
`Text` object -- and is total. -/
theorem C7_no_patterns_identity (text : String) (config : Config)
    (h : config.highlight_res = []) :
    apply_highlighting text config = StyledText.plain text := by
  simp [apply_highlighting, h]

theorem C7_witness :
    apply_highlighting "ERROR: failed" ({} : Config) = StyledText.plain "ERROR: failed" :=
  C7_no_patterns_identity "ERROR: failed" {} rfl

/-- C4: a line that fails JSON decoding is printed verbatim, trailing
whitespace stripped, with markup and highlighting disabled, and
`print_record` returns `true`; the output is the same for every filter
configuration and `skip_filter` value (the filters are never consulted),
and `print_record` is a pure per-line function, so other lines are
unaffected. -/
theorem C4_decode_failure_prints_verbatim (env : PyEnv) (line : String)
    (config : Config) (skip_filter : Bool) (h : env.json_loads line = none) :
    print_record env line config skip_filter =
      ((if config.debug then [ConsoleOutput.debugPrint] else []) ++
        [ConsoleOutput.print (pyRstrip line) false false], true) := by
  simp [print_record, h]

theorem C4_witness :
    print_record envNone "not json\n" ({} : Config) false =
      ([ConsoleOutput.print "not json" false false], true) := by
  have h := C4_decode_failure_prints_verbatim envNone "not json\n" {} false rfl
  simpa using h

/-- C9: with no include regex, no exclude regex and no field selectors
configured, `should_include_record` accepts every record, and
`check_if_match` accepts every input line -- including ones that fail JSON
decoding -- without even parsing it. -/
theorem C9_no_filters_everything_passes (record : Record) (text : String)
    (config : Config) (env : PyEnv) (line : String)
    (h1 : config.include_re = none) (h2 : config.exclude_re = none)
    (h3 : config.field_selectors = []) :
    should_include_record record text config = true ∧
    check_if_match env line config = true := by
  constructor
  · simp [should_include_record, check_field_selectors, h1, h2, h3]
  · simp [check_if_match, h1, h2, h3]

theorem C9_witness :
    should_include_record ⟨"2024-01-01", "INFO", "msg", Json.obj []⟩ "text"
      ({} : Config) = true ∧
    check_if_match envNone "not json" ({} : Config) = true :=
  C9_no_filters_everything_passes ⟨"2024-01-01", "INFO", "msg", Json.obj []⟩ "text"
    {} envNone "not json" rfl rfl rfl

/-- C10: as soon as any filter is configured, a line that fails JSON
decoding never counts as a filter match (`check_if_match` returns
`false`), even though `print_record` still prints that very line verbatim
and reports it as printed. -/
theorem C10_unparseable_line_never_matches (env : PyEnv) (line : String)
    (config : Config)
    (hf : config.include_re.isSome = true ∨ config.exclude_re.isSome = true ∨
      config.field_selectors ≠ [])
    (hd : env.json_loads line = none) :
    check_if_match env line config = false ∧
    print_record env line config false =
      ((if config.debug then [ConsoleOutput.debugPrint] else []) ++
        [ConsoleOutput.print (pyRstrip line) false false], true) := by
  constructor
  · have hguard : (config.include_re.isSome || config.exclude_re.isSome ||
        !config.field_selectors.isEmpty) = true := by
      rcases hf with h | h | h
      · simp [h]
      · simp [h]
      · simp [List.isEmpty_iff, h]
    simp [check_if_match, hguard, hd]
  · simp [print_record, hd]

theorem lookupKey_eraseKey_self (kvs : List (String × Json)) (k : String) :
    lookupKey (eraseKey kvs k) k = none := by
  induction kvs with
  | nil => rfl
  | cons kv rest ih =>
    obtain ⟨k', v⟩ := kv
    by_cases h : k' = k
    · simp [eraseKey, h, ih]
    · simp [eraseKey, lookupKey, h, ih]

theorem lookupKey_eraseKey_ne (kvs : List (String × Json)) (k k₂ : String)
    (h : k₂ ≠ k) : lookupKey (eraseKey kvs k) k₂ = lookupKey kvs k₂ := by
  induction kvs with
  | nil => rfl
  | cons kv rest ih =>
    obtain ⟨k', v⟩ := kv
    by_cases hk : k' = k
    · subst hk
      simp [eraseKey, lookupKey, Ne.symm h, ih]
    · by_cases hk2 : k' = k₂
      · subst hk2
        simp [eraseKey, hk, lookupKey, h]
      · simp [eraseKey, hk, lookupKey, hk2, ih]

theorem lookupKey_modifyKey_self (kvs : List (String × Json)) (k : String)
    (f : Json → Json) :
    lookupKey (modifyKey kvs k f) k = (lookupKey kvs k).map f := by
  induction kvs with
  | nil => rfl
  | cons kv rest ih =>
    obtain ⟨k', v⟩ := kv
    by_cases h : k' = k
    · simp [modifyKey, h, lookupKey]
    · simp [modifyKey, h, lookupKey, ih]

theorem lookupKey_modifyKey_ne (kvs : List (String × Json)) (k k₂ : String)
    (f : Json → Json) (h : k₂ ≠ k) :
    lookupKey (modifyKey kvs k f) k₂ = lookupKey kvs k₂ := by
  induction kvs with
  | nil => rfl
  | cons kv rest ih =>
    obtain ⟨k', v⟩ := kv
    by_cases hk : k' = k
    · subst hk
      simp [modifyKey, lookupKey, Ne.symm h]
    · by_cases hk2 : k' = k₂
      · subst hk2
        simp [modifyKey, hk, lookupKey, h]
      · simp [modifyKey, hk, lookupKey, hk2, ih]

theorem removePath_not_obj (v : Json) (q : List String)
    (h : ∀ kvs, v ≠ Json.obj kvs) : removePath v q = v := by
  cases v with
  | obj kvs => exact absurd rfl (h kvs)
  | str s => cases q with
    | nil => rfl
    | cons a q' => cases q' <;> rfl
  | num n => cases q with
    | nil => rfl
    | cons a q' => cases q' <;> rfl
  | bool b => cases q with
    | nil => rfl
    | cons a q' => cases q' <;> rfl
  | null => cases q with
    | nil => rfl
    | cons a q' => cases q' <;> rfl
  | arr xs => cases q with
    | nil => rfl
    | cons a q' => cases q' <;> rfl

theorem getPath_removePath_self (rest : List String) :
    ∀ (data : Json) (k : String),
      getPath (removePath data (k :: rest)) (k :: rest) = none := by
  induction rest with
  | nil =>
    intro data k
    cases data with
    | obj kvs => simp [removePath, getPath, lookupKey_eraseKey_self]
    | str s => rfl
    | num n => rfl
    | bool b => rfl
    | null => rfl
    | arr xs => rfl
  | cons r rs ih =>
    intro data k
    cases data with
    | obj kvs =>
      simp only [removePath, getPath, lookupKey_modifyKey_self]
      cases h : lookupKey kvs k with
      | none => simp
      | some v => simpa using ih v r
    | str s => rfl
    | num n => rfl
    | bool b => rfl
    | null => rfl
    | arr xs => rfl

theorem getPath_none_removePath (p : List String) :
    ∀ (data : Json) (q : List String), getPath data p = none →
      getPath (removePath data q) p = none := by
  induction p with
  | nil => intro data q h; simp [getPath] at h
  | cons k ps ih =>
    intro data q h
    cases data with
    | obj kvs =>
      cases q with
      | nil => exact h
      | cons j q' =>
        cases q' with
        | nil =>
          simp only [removePath, getPath]
          by_cases hjk : j = k
          · subst hjk
            simp [lookupKey_eraseKey_self]
          · rw [lookupKey_eraseKey_ne kvs j k (Ne.symm hjk)]
            simp only [getPath] at h
            exact h
        | cons j2 q'' =>
          simp only [removePath, getPath]
          by_cases hjk : j = k
          · subst hjk
            rw [lookupKey_modifyKey_self]
            simp only [getPath] at h
            cases hl : lookupKey kvs j with
            | none => simp
            | some v =>
              rw [hl] at h
              simpa using ih v (j2 :: q'') h
          · rw [lookupKey_modifyKey_ne kvs j k _ (Ne.symm hjk)]
            simp only [getPath] at h
            cases hl : lookupKey kvs k with
            | none => simp
            | some v =>
              rw [hl] at h
              exact h
    | str s => rwa [removePath_not_obj _ _ (by intro kvs hc; cases hc)]
    | num n => rwa [removePath_not_obj _ _ (by intro kvs hc; cases hc)]
    | bool b => rwa [removePath_not_obj _ _ (by intro kvs hc; cases hc)]
    | null => rwa [removePath_not_obj _ _ (by intro kvs hc; cases hc)]
    | arr xs => rwa [removePath_not_obj _ _ (by intro kvs hc; cases hc)]

theorem getPath_removePath_parent (ps : List String) :
    ∀ (data : Json) (k : String) (inner : List (String × Json)),
      getPath data ps = some (Json.obj inner) →
      getPath (removePath data (ps ++ [k])) ps = some (Json.obj (eraseKey inner k)) := by
  induction ps with
  | nil =>
    intro data k inner h
    simp only [getPath] at h
    obtain rfl : data = Json.obj inner := by simpa using h
    simp [removePath, getPath]
  | cons p ps' ih =>
    intro data k inner h
    cases data with
    | obj kvs =>
      simp only [getPath] at h
      cases hl : lookupKey kvs p with
      | none => rw [hl] at h; simp at h
      | some v =>
        rw [hl] at h
        cases ps' with
        | nil =>
          simp only [List.nil_append, List.cons_append, removePath, getPath,
            lookupKey_modifyKey_self, hl, Option.map_some]
          have h2 := ih v k inner h
          simp only [List.nil_append, getPath, Option.some.injEq] at h2
          simpa using h2
        | cons p2 ps'' =>
          simp only [List.cons_append, removePath, getPath,
            lookupKey_modifyKey_self, hl, Option.map_some]
          have := ih v k inner h
          simpa using this
    | str s => simp [getPath] at h
    | num n => simp [getPath] at h
    | bool b => simp [getPath] at h
    | null => simp [getPath] at h
    | arr xs => simp [getPath] at h

theorem splitDotChars_ne_nil (cs : List Char) : splitDotChars cs ≠ [] := by
  induction cs with
  | nil => simp [splitDotChars]
  | cons c rest ih =>
    by_cases h : c = '.'
    · simp [splitDotChars, h]
    · simp only [splitDotChars, h, if_false]
      cases hs : splitDotChars rest with
      | nil => simp
      | cons seg segs => simp

theorem splitDot_ne_nil (key : String) : splitDot key ≠ [] := by
  simp [splitDot, splitDotChars_ne_nil]

theorem dotted_get_dotted_remove_self (data : Json) (key : String) :
    dotted_get (dotted_remove data key) key = none := by
  unfold dotted_get dotted_remove
  cases h : splitDot key with
  | nil => exact absurd h (splitDot_ne_nil key)
  | cons k rest => exact getPath_removePath_self rest data k

theorem dotted_get_none_dotted_remove (data : Json) (key other : String)
    (h : dotted_get data key = none) :
    dotted_get (dotted_remove data other) key = none :=
  getPath_none_removePath (splitDot key) data (splitDot other) h

theorem dotted_get_none_pop_key_go (keys : List String) :
    ∀ (data : Json) (fallback k : String), dotted_get data k = none →
      dotted_get (pop_key_go data keys fallback).2 k = none := by
  induction keys with
  | nil => intro data fallback k h; exact h
  | cons key rest ih =>
    intro data fallback k h
    simp only [pop_key_go, dot_pop]
    cases hv : dotted_get data key with
    | none => exact ih data fallback k h
    | some v =>
      cases v with
      | str s =>
        by_cases hs : s = ""
        · simp only [hs, if_pos rfl]
          exact ih _ fallback k (dotted_get_none_dotted_remove data k key h)
        · simp only [if_neg hs]
          exact dotted_get_none_dotted_remove data k key h
      | arr xs => exact dotted_get_none_dotted_remove data k key h
      | num n => exact ih data fallback k h
      | bool b => exact ih data fallback k h
      | null => exact ih data fallback k h
      | obj kvs => exact ih data fallback k h

theorem consumed_keys_absent (keys : List String) :
    ∀ (data : Json) (fallback k : String), k ∈ consumed_keys data keys →
      dotted_get (pop_key_go data keys fallback).2 k = none := by
  induction keys with
  | nil => intro data fallback k h; simp [consumed_keys] at h
  | cons key rest ih =>
    intro data fallback k h
    simp only [consumed_keys] at h
    simp only [pop_key_go, dot_pop]
    cases hv : dotted_get data key with
    | none =>
      rw [hv] at h
      exact ih data fallback k h
    | some v =>
      rw [hv] at h
      cases v with
      | str s =>
        by_cases hs : s = ""
        · subst hs
          simp only [if_pos rfl] at h ⊢
          rcases List.mem_cons.mp h with rfl | hmem
          · exact dotted_get_none_pop_key_go rest _ fallback k
              (dotted_get_dotted_remove_self data k)
          · exact ih _ fallback k hmem
        · simp only [if_neg hs] at h ⊢
          obtain rfl : k = key := by simpa using h
          exact dotted_get_dotted_remove_self data k
      | arr xs =>
        obtain rfl : k = key := by simpa using h
        exact dotted_get_dotted_remove_self data k
      | num n => exact ih data fallback k h
      | bool b => exact ih data fallback k h
      | null => exact ih data fallback k h
      | obj kvs => exact ih data fallback k h

theorem pyStr_arr_ne_empty (xs : List Json) : pyStr (Json.arr xs) ≠ "" := by
  intro h
  have h2 : pyStr (Json.arr xs) = "[" ++ String.intercalate ", " (pyReprList xs) ++ "]" := by
    simp [pyStr, pyRepr]
  rw [h2] at h
  have h3 := congrArg String.length h
  simp [String.length_append] at h3
  exact absurd h3.1.1 (by decide)

theorem pop_key_cons_none (data : Json) (key : String) (rest : List String)
    (fallback : String) (h : dotted_get data key = none) :
    pop_key data (key :: rest) fallback = pop_key data rest fallback := by
  simp [pop_key, pop_key_go, dot_pop, h]

theorem pop_key_cons_str_empty (data : Json) (key : String) (rest : List String)
    (fallback : String) (h : dotted_get data key = some (Json.str "")) :
    pop_key data (key :: rest) fallback =
      pop_key (dotted_remove data key) rest fallback := by
  simp [pop_key, pop_key_go, dot_pop, h]

theorem pop_key_cons_str (data : Json) (key : String) (rest : List String)
    (fallback v : String) (h : dotted_get data key = some (Json.str v))
    (hv : v ≠ "") :
    pop_key data (key :: rest) fallback = (v, dotted_remove data key) := by
  simp [pop_key, pop_key_go, dot_pop, h, hv]

theorem pop_key_cons_arr (data : Json) (key : String) (rest : List String)
    (fallback : String) (xs : List Json)
    (h : dotted_get data key = some (Json.arr xs)) :
    pop_key data (key :: rest) fallback =
      (pyStr (Json.arr xs), dotted_remove data key) := by
  simp [pop_key, pop_key_go, dot_pop, h]

theorem pop_key_cons_other (data : Json) (key : String) (rest : List String)
    (fallback : String) (h : dot_pop_removes data key = false) :
    pop_key data (key :: rest) fallback = pop_key data rest fallback := by
  simp only [dot_pop_removes] at h
  cases hv : dotted_get data key with
  | none => simp [pop_key, pop_key_go, dot_pop, hv]
  | some v =>
    rw [hv] at h
    cases v with
    | str s => simp at h
    | arr xs => simp at h
    | num n => simp [pop_key, pop_key_go, dot_pop, hv]
    | bool b => simp [pop_key, pop_key_go, dot_pop, hv]
    | null => simp [pop_key, pop_key_go, dot_pop, hv]
    | obj kvs => simp [pop_key, pop_key_go, dot_pop, hv]

theorem pop_key_ne_empty (keys : List String) :
    ∀ (data : Json) (fallback : String),
      (pop_key data keys fallback).1 = "" → fallback = "" := by
  induction keys with
  | nil => intro data fallback h; exact h
  | cons key rest ih =>
    intro data fallback h
    cases hv : dotted_get data key with
    | none =>
      rw [pop_key_cons_none data key rest fallback hv] at h
      exact ih data fallback h
    | some v =>
      cases v with
      | str s =>
        by_cases hs : s = ""
        · subst hs
          rw [pop_key_cons_str_empty data key rest fallback hv] at h
          exact ih _ fallback h
        · rw [pop_key_cons_str data key rest fallback s hv hs] at h
          exact absurd h hs
      | arr xs =>
        rw [pop_key_cons_arr data key rest fallback xs hv] at h
        exact absurd h (pyStr_arr_ne_empty xs)
      | num n =>
        rw [pop_key_cons_other data key rest fallback (by simp [dot_pop_removes, hv])] at h
        exact ih data fallback h
      | bool b =>
        rw [pop_key_cons_other data key rest fallback (by simp [dot_pop_removes, hv])] at h
        exact ih data fallback h
      | null =>
        rw [pop_key_cons_other data key rest fallback (by simp [dot_pop_removes, hv])] at h
        exact ih data fallback h
      | obj kvs =>
        rw [pop_key_cons_other data key rest fallback (by simp [dot_pop_removes, hv])] at h
        exact ih data fallback h

theorem pop_key_no_removal (keys : List String) :
    ∀ (data : Json) (fallback : String),
      (∀ k ∈ keys, dot_pop_removes data k = false) →
      pop_key data keys fallback = (fallback, data) := by
  induction keys with
  | nil => intro data fallback _; rfl
  | cons key rest ih =>
    intro data fallback h
    rw [pop_key_cons_other data key rest fallback (h key (List.mem_cons_self _ _))]
    exact ih data fallback (fun k hm => h k (List.mem_cons_of_mem _ hm))

/-- C6: during fallback resolution a candidate resolving to the empty
string is treated as absent and resolution falls through (and `pop_key`
never returns the empty string unless the fallback itself is empty); a
non-empty string value passes through as-is; a list value is converted to
its display representation; every other JSON value (number, boolean,
null, object) fails the candidate and falls through to the next candidate
or the fallback, leaving that key in place (the mapping is untouched). -/
theorem C6_candidate_resolution (data : Json) (key : String) (rest : List String)
    (fallback : String) :
    (dotted_get data key = some (Json.str "") →
      pop_key data (key :: rest) fallback =
        pop_key (dotted_remove data key) rest fallback) ∧
    (∀ v, dotted_get data key = some (Json.str v) → v ≠ "" →
      pop_key data (key :: rest) fallback = (v, dotted_remove data key)) ∧
    (∀ xs, dotted_get data key = some (Json.arr xs) →
      pop_key data (key :: rest) fallback =
        (pyStr (Json.arr xs), dotted_remove data key)) ∧
    (∀ v, dotted_get data key = some v → v.isStr = false → v.isArr = false →
      pop_key data (key :: rest) fallback = pop_key data rest fallback) ∧
    (dotted_get data key = none →
      pop_key data (key :: rest) fallback = pop_key data rest fallback) ∧
    (∀ keys, (pop_key data keys fallback).1 = "" → fallback = "") := by
  refine ⟨?_, ?_, ?_, ?_, ?_, fun keys h => pop_key_ne_empty keys data fallback h⟩
  · intro h
    simp [pop_key, pop_key_go, dot_pop, h]
  · intro v h hv
    simp [pop_key, pop_key_go, dot_pop, h, hv]
  · intro xs h
    simp [pop_key, pop_key_go, dot_pop, h]
  · intro v h h1 h2
    cases v with
    | str s => simp [Json.isStr] at h1
    | arr xs => simp [Json.isArr] at h2
    | num n => simp [pop_key, pop_key_go, dot_pop, h]
    | bool b => simp [pop_key, pop_key_go, dot_pop, h]
    | null => simp [pop_key, pop_key_go, dot_pop, h]
    | obj kvs => simp [pop_key, pop_key_go, dot_pop, h]
  · intro h
    simp [pop_key, pop_key_go, dot_pop, h]

theorem C6_witness :
    pop_key (Json.obj [("level", Json.str "error")]) ["level"] "" =
      ("error", Json.obj []) := by
  have h := (C6_candidate_resolution (Json.obj [("level", Json.str "error")])
    "level" [] "").2.1 "error" rfl (by decide)
  exact h

/-- C2 counterexample: with data `{"a": "", "b": "x"}` and key list
`[a, b]`, candidate `a` resolves to the empty string, so resolution falls
through to `b` -- yet `a`'s entry is deleted from the mapping too, so the
non-resolving sibling is not untouched; and with data `{"a": ""}` alone no
candidate resolves, the fallback is returned, but the mapping does not
keep its remaining entry. -/
theorem C2_counterexample :
    pop_key (Json.obj [("a", Json.str ""), ("b", Json.str "x")]) ["a", "b"] "F" =
      ("x", Json.obj []) ∧
    (pop_key (Json.obj [("a", Json.str "")]) ["a"] "F").1 = "F" ∧
    (pop_key (Json.obj [("a", Json.str "")]) ["a"] "F").2 ≠
      Json.obj [("a", Json.str "")] := by
  refine ⟨rfl, rfl, ?_⟩
  intro h
  have h2 : Json.obj ([] : List (String × Json)) = Json.obj [("a", Json.str "")] := h
  simp at h2

/-- C2 (amended): `pop_key` walks the candidates left-to-right and returns
the value of the first candidate that resolves to a non-empty value,
removing that resolved leaf key (only the leaf, siblings untouched);
however, a candidate resolving to the empty string is also removed from
the mapping even though resolution falls through to the next candidate;
candidates that do not resolve at all (absent, or of non-string,
non-sequence type) leave the mapping untouched; if no candidate's value is
a string or a sequence, `pop_key` returns the fallback sentinel with the
mapping unchanged. -/
theorem C2_amended_pop_key (data : Json) (key : String) (rest : List String)
    (fallback : String) :
    (pop_key data [] fallback = (fallback, data)) ∧
    (dotted_get data key = some (Json.str "") →
      pop_key data (key :: rest) fallback =
        pop_key (dotted_remove data key) rest fallback) ∧
    (∀ v, dotted_get data key = some (Json.str v) → v ≠ "" →
      pop_key data (key :: rest) fallback = (v, dotted_remove data key)) ∧
    (∀ xs, dotted_get data key = some (Json.arr xs) →
      pop_key data (key :: rest) fallback =
        (pyStr (Json.arr xs), dotted_remove data key)) ∧
    (dot_pop_removes data key = false →
      pop_key data (key :: rest) fallback = pop_key data rest fallback) ∧
    (∀ keys, (∀ k ∈ keys, dot_pop_removes data k = false) →
      pop_key data keys fallback = (fallback, data)) ∧
    (dotted_get (dotted_remove data key) key = none) ∧
    (∀ (kvs : List (String × Json)) (k k₂ : String), k₂ ≠ k →
      lookupKey (eraseKey kvs k) k₂ = lookupKey kvs k₂) := by
  refine ⟨rfl, ?_, ?_, ?_, ?_,
    fun keys h => pop_key_no_removal keys data fallback h,
    dotted_get_dotted_remove_self data key,
    fun kvs k k₂ hk => lookupKey_eraseKey_ne kvs k k₂ hk⟩
  · intro h
    simp [pop_key, pop_key_go, dot_pop, h]
  · intro v h hv
    simp [pop_key, pop_key_go, dot_pop, h, hv]
  · intro xs h
    simp [pop_key, pop_key_go, dot_pop, h]
  · intro h
    simp only [dot_pop_removes] at h
    cases hv : dotted_get data key with
    | none => simp [pop_key, pop_key_go, dot_pop, hv]
    | some v =>
      rw [hv] at h
      cases v with
      | str s => simp at h
      | arr xs => simp at h
      | num n => simp [pop_key, pop_key_go, dot_pop, hv]
      | bool b => simp [pop_key, pop_key_go, dot_pop, hv]
      | null => simp [pop_key, pop_key_go, dot_pop, hv]
      | obj kvs => simp [pop_key, pop_key_go, dot_pop, hv]

theorem C2_amended_witness :
    pop_key (Json.obj [("time", Json.str "12:00"), ("x", Json.num 1)])
      ["timestamp", "time"] "<no timestamp>" =
      ("12:00", Json.obj [("x", Json.num 1)]) := by
  have step1 := (C2_amended_pop_key (Json.obj [("time", Json.str "12:00"), ("x", Json.num 1)])
    "timestamp" ["time"] "<no timestamp>").2.2.2.2.1 rfl
  have step2 := (C2_amended_pop_key (Json.obj [("time", Json.str "12:00"), ("x", Json.num 1)])
    "time" [] "<no timestamp>").2.2.1 "12:00" rfl (by decide)
  rw [step1, step2]
  rfl

/-- C5: resolving a dotted candidate key removes only the leaf key from
its immediate parent mapping -- the parent container stays present and
every sibling key inside it is unchanged, while the full dotted path no
longer resolves; and the `Record` built by `from_line` never retains a raw
key that a canonical-field resolution consumed (the keys listed by
`consumed_keys` for the timestamp, then level, then message stages no
longer resolve against the remaining `fields`). -/
theorem C5_leaf_local_pruning :
    (∀ (data : Json) (ps : List String) (k : String)
        (inner : List (String × Json)),
      getPath data ps = some (Json.obj inner) →
        getPath (removePath data (ps ++ [k])) ps =
          some (Json.obj (eraseKey inner k)) ∧
        (∀ k₂, k₂ ≠ k → lookupKey (eraseKey inner k) k₂ = lookupKey inner k₂) ∧
        getPath (removePath data (ps ++ [k])) (ps ++ [k]) = none) ∧
    (∀ (data : Json) (config : Config) (k : String),
      (k ∈ consumed_keys data config.keys.timestamp ∨
       k ∈ consumed_keys (pop_key data config.keys.timestamp "<no timestamp>").2
            config.keys.level ∨
       k ∈ consumed_keys
            (pop_key (pop_key data config.keys.timestamp "<no timestamp>").2
              config.keys.level "").2 config.keys.message) →
      dotted_get (Record.from_line data config).data k = none) := by
  constructor
  · intro data ps k inner h
    refine ⟨getPath_removePath_parent ps data k inner h,
      fun k₂ hk => lookupKey_eraseKey_ne inner k k₂ hk, ?_⟩
    obtain ⟨a, tail, hps⟩ : ∃ a tail, ps ++ [k] = a :: tail := by
      cases ps with
      | nil => exact ⟨k, [], rfl⟩
      | cons x xs => exact ⟨x, xs ++ [k], rfl⟩
    rw [hps]
    exact getPath_removePath_self tail data a
  · intro data config k hmem
    have hdata : (Record.from_line data config).data =
        (pop_key (pop_key (pop_key data config.keys.timestamp "<no timestamp>").2
          config.keys.level "").2 config.keys.message "<no message>").2 := rfl
    rw [hdata]
    rcases hmem with h1 | h2 | h3
    · have s1 := consumed_keys_absent config.keys.timestamp data "<no timestamp>" k h1
      have s2 := dotted_get_none_pop_key_go config.keys.level _ "" k s1
      exact dotted_get_none_pop_key_go config.keys.message _ "<no message>" k s2
    · have s2 := consumed_keys_absent config.keys.level _ "" k h2
      exact dotted_get_none_pop_key_go config.keys.message _ "<no message>" k s2
    · exact consumed_keys_absent config.keys.message _ "<no message>" k h3

theorem C5_witness :
    getPath (removePath
        (Json.obj [("server", Json.obj [("hostname", Json.str "x"),
          ("port", Json.num 80)])]) (["server"] ++ ["hostname"])) ["server"] =
      some (Json.obj [("port", Json.num 80)]) ∧
    dotted_get (Record.from_line
        (Json.obj [("event", Json.str "boom"), ("level", Json.str "error")])
        {}).data "event" = none := by
  constructor
  · exact ((C5_leaf_local_pruning.1
      (Json.obj [("server", Json.obj [("hostname", Json.str "x"), ("port", Json.num 80)])])
      ["server"] "hostname" [("hostname", Json.str "x"), ("port", Json.num 80)] rfl).1)
  · exact C5_leaf_local_pruning.2
      (Json.obj [("event", Json.str "boom"), ("level", Json.str "error")]) {} "event"
      (Or.inr (Or.inr (by decide)))

theorem check_field_selectors_eq_true_iff (selectors : List (String × String))
    (record : Record) :
    check_field_selectors selectors record = true ↔
      ∀ kp ∈ selectors, ∃ v, _get_field_value record kp.1 = some v ∧
        fnmatch (pyLower v) (pyLower kp.2) = true := by
  induction selectors with
  | nil => simp [check_field_selectors]
  | cons kp rest ih =>
    obtain ⟨key, pattern⟩ := kp
    cases h : _get_field_value record key with
    | none =>
      simp only [check_field_selectors, h, Bool.false_eq_true, false_iff]
      intro hall
      obtain ⟨v, hv, _⟩ := hall (key, pattern) (List.mem_cons_self _ _)
      simp [h] at hv
    | some v =>
      simp only [check_field_selectors, h, Bool.and_eq_true, ih]
      constructor
      · rintro ⟨hm, hrest⟩ kp' hkp'
        rcases List.mem_cons.mp hkp' with heq | hmem
        · subst heq
          exact ⟨v, h, hm⟩
        · exact hrest kp' hmem
      · intro hall
        refine ⟨?_, fun kp' hkp' => hall kp' (List.mem_cons_of_mem _ hkp')⟩
        obtain ⟨v', hv', hm'⟩ := hall (key, pattern) (List.mem_cons_self _ _)
        have hvv : v' = v := by
          rw [h] at hv'
          exact (Option.some.injEq _ _ ▸ hv').symm
        rw [hvv] at hm'
        exact hm'

theorem should_include_record_eq_true_iff (record : Record) (text : String)
    (config : Config) :
    should_include_record record text config = true ↔
      (check_field_selectors config.field_selectors record = true ∧
        (∀ p ∈ config.include_re, p.search text = true) ∧
        (∀ p ∈ config.exclude_re, p.search text = false)) := by
  simp only [should_include_record, Bool.and_eq_true]
  cases hi : config.include_re <;> cases he : config.exclude_re <;>
    simp [Option.mem_def, and_assoc]

/-- C1: `should_include_record` evaluates field selectors, then the
include pattern, then the exclude pattern with AND semantics:
it accepts exactly when every field selector resolves and glob-matches
case-insensitively, the include pattern (when present) matches the
rendered text, and the exclude pattern (when present) does not; an
unresolved selector key rejects, a resolved-but-non-matching value
rejects, and when both include and exclude match the same rendered text
the record is rejected (exclude wins).  Short-circuiting on the first
failure is how the embedded definition computes this conjunction. -/
theorem C1_filter_pipeline (record : Record) (text : String) (config : Config) :
    (should_include_record record text config = true ↔
      ((∀ kp ∈ config.field_selectors, ∃ v, _get_field_value record kp.1 = some v ∧
          fnmatch (pyLower v) (pyLower kp.2) = true) ∧
        (∀ p ∈ config.include_re, p.search text = true) ∧
        (∀ p ∈ config.exclude_re, p.search text = false))) ∧
    (∀ key pattern, (key, pattern) ∈ config.field_selectors →
      _get_field_value record key = none →
      should_include_record record text config = false) ∧
    (∀ key pattern v, (key, pattern) ∈ config.field_selectors →
      _get_field_value record key = some v →
      fnmatch (pyLower v) (pyLower pattern) = false →
      should_include_record record text config = false) ∧
    (∀ pi pe, config.include_re = some pi → config.exclude_re = some pe →
      pi.search text = true → pe.search text = true →
      should_include_record record text config = false) := by
  have hiff := should_include_record_eq_true_iff record text config
  have hsel := check_field_selectors_eq_true_iff config.field_selectors record
  refine ⟨by rw [hiff, hsel], ?_, ?_, ?_⟩
  · intro key pattern hmem hnone
    cases hres : should_include_record record text config with
    | false => rfl
    | true =>
      obtain ⟨hcs, -, -⟩ := hiff.mp hres
      obtain ⟨v, hv, -⟩ := (hsel.mp hcs) (key, pattern) hmem
      simp [hnone] at hv
  · intro key pattern v hmem hsome hmatch
    cases hres : should_include_record record text config with
    | false => rfl
    | true =>
      obtain ⟨hcs, -, -⟩ := hiff.mp hres
      obtain ⟨v', hv', hm'⟩ := (hsel.mp hcs) (key, pattern) hmem
      rw [hsome] at hv'
      obtain rfl : v = v' := by
        exact (Option.some.injEq _ _ ▸ hv')
      rw [hmatch] at hm'
      exact absurd hm' (by simp)
  · intro pi pe hi he hpi hpe
    cases hres : should_include_record record text config with
    | false => rfl
    | true =>
      obtain ⟨-, -, hexc⟩ := hiff.mp hres
      have := hexc pe (by rw [he]; rfl)
      rw [hpe] at this
      exact absurd this (by simp)

theorem C1_witness :
    should_include_record ⟨"2024-01-01", "ERROR", "payment failed", Json.obj []⟩
      "ERROR payment failed"
      { include_re := some alwaysPattern, exclude_re := some alwaysPattern } = false :=
  (C1_filter_pipeline ⟨"2024-01-01", "ERROR", "payment failed", Json.obj []⟩
      "ERROR payment failed"
      { include_re := some alwaysPattern, exclude_re := some alwaysPattern }).2.2.2
    alwaysPattern alwaysPattern rfl rfl rfl rfl

theorem C10_witness :
    check_if_match envNone "oops" { include_re := some alwaysPattern } = false ∧
    print_record envNone "oops" { include_re := some alwaysPattern } false =
      ([ConsoleOutput.print "oops" false false], true) := by
  have h := C10_unparseable_line_never_matches envNone "oops"
    { include_re := some alwaysPattern } (Or.inl rfl) rfl
  simpa using h

end TailJsonl
